import Mathlib

/-!
# Verification of `nest` (src/src/packages/recompose/nest.js)

Shallow embedding of the `nest` combinator of this repository and proofs of
the specified properties.  The JavaScript source is:

```js
const nest = (...Components) => {
  const factories = Components.map(createEagerFactory)
  const Nest = ({ ...props, children }) =>
    factories.reduceRight((child, factory) => factory(props, child), children)

  if (process.env.NODE_ENV !== 'production') {
    const displayNames = Components.map(getDisplayName)
    Nest.displayName = `nest(${displayNames.join(', ')})`
  }

  return Nest
}
```

JavaScript values reaching the library are modelled by the inductive type
`JSValue`; a props object is an association list from string keys to values
(`Props`), with the conventional reserved key `"children"`.  Destructuring
`({ ...props, children })` is modelled by `getProp p "children"` (giving
`JSValue.undefined` when the key is absent, as in JavaScript) together with
`removeProp p "children"` (the rest object).  The build-mode flag
`process.env.NODE_ENV !== 'production'` is an explicit boolean parameter
`isProduction` of `nest`, as §9 of the design suggests.
-/

/-- A JavaScript value as observed by this library: primitives, plus an
opaque renderable node (a tag and two payload values) produced by the
external rendering framework.  The library never inspects node internals;
the constructor exists so that probe components can report what they were
given. -/
inductive JSValue where
  | undefined : JSValue
  | null : JSValue
  | boolean : Bool → JSValue
  | num : Int → JSValue
  | str : String → JSValue
  | node : String → JSValue → JSValue → JSValue
deriving Repr, DecidableEq

/-- A JavaScript props object: an association list of string keys to values
(first binding of a key wins, as object keys are unique). -/
abbrev Props : Type := List (String × JSValue)

/-- Encodes a props object as a value, so that probe components can embed
the props they receive into their rendered output. -/
def encodeProps : Props → JSValue
  | [] => JSValue.null
  | (k, v) :: rest => JSValue.node k v (encodeProps rest)

/-- Property lookup: `p[k]`, giving `undefined` for an absent key, as in
JavaScript. -/
def getProp (p : Props) (k : String) : JSValue :=
  match List.find? (fun kv => kv.1 == k) p with
  | some kv => kv.2
  | none => JSValue.undefined

/-- The rest object of a destructuring that extracts key `k`: all bindings
of `p` except `k`. -/
def removeProp (p : Props) (k : String) : Props :=
  List.filter (fun kv => kv.1 != k) p

/-- Object spread update `{ ...p, k: v }`: every binding of `p` except `k`,
plus the binding `k ↦ v`. -/
def setProp (p : Props) (k : String) (v : JSValue) : Props :=
  removeProp p k ++ [(k, v)]

/-- A normalized factory: a uniform two-argument callable
`(props, children) → renderable` (spec §3). -/
abbrev Factory : Type := Props → JSValue → JSValue

/-- A component-like input to `nest`.  Modelled from the spec
(src does not contain `ComponentLike`'s consumers other than `nest.js`):
§9 prescribes the variant type
`ComponentLike = Renderer(props) | Factory(props, children)`, a tagged
union of a one-argument renderable-producing function and an
already-normalized two-argument factory.  Each carries the optional
display name a JavaScript function value would expose (`displayName` or
`name`); `none` models an anonymous input. -/
inductive ComponentLike where
  | renderer : Option String → (Props → JSValue) → ComponentLike
  | factory : Option String → Factory → ComponentLike

/-- Modelled from the spec: `createEagerFactory`
(src/src/packages/recompose/createEagerFactory.js is not under src/).
Spec §4.1: given any ComponentLike, return a Factory.  "If the input is
already a two-argument callable, it is treated as such and invoked
directly.  If the input is a single-argument renderable-producing
function …, it is adapted so that its second argument (`children`) is
threaded into the props passed to it under a reserved key." -/
def createEagerFactory : ComponentLike → Factory
  | ComponentLike.factory _ f => f
  | ComponentLike.renderer _ f => fun props children => f (setProp props "children" children)

/-- Modelled from the spec: `getDisplayName`
(src/src/packages/recompose/getDisplayName.js is not under src/).
Spec §4.2: it maps "each original `Ci` to a human-readable name (falling
back to a generic name for anonymous inputs)". -/
def getDisplayName (c : ComponentLike) : String :=
  match c with
  | ComponentLike.renderer name _ => name.getD "Component"
  | ComponentLike.factory name _ => name.getD "Component"

/-- The function value returned by `nest`: the captured list of normalized
factories, plus the `displayName` annotation (`none` when the property was
never assigned, i.e. in a production build). -/
structure NestedFactory where
  factories : List Factory
  displayName : Option String

/-- The diagnostic label `nest(${displayNames.join(', ')})` computed from
the original inputs (nest.js lines 10-11). -/
def nestLabel (Components : List ComponentLike) : String :=
  "nest(" ++ String.intercalate ", " (List.map getDisplayName Components) ++ ")"

/-- `nest(...Components)` (nest.js lines 4-15).  `isProduction` models the
externally supplied flag `process.env.NODE_ENV === 'production'`: the
`displayName` property is assigned only when it is false. -/
def nest (isProduction : Bool) (Components : List ComponentLike) : NestedFactory :=
  let factories := List.map createEagerFactory Components
  { factories := factories
    displayName := if isProduction then none else some (nestLabel Components) }

/-- One invocation of the returned `Nest` function (nest.js lines 6-7):
`({ ...props, children }) => factories.reduceRight((child, factory) =>
factory(props, child), children)`.  The destructuring extracts the
`children` binding (JavaScript `undefined` when absent) and collects the
remaining bindings into the rest object `props`; `reduceRight` starts from
`children` and consumes the factory list from its right end, which is
`List.foldr` of the two-argument application. -/
def invoke (n : NestedFactory) (propsArg : Props) : JSValue :=
  let children := getProp propsArg "children"
  let props := removeProp propsArg "children"
  List.foldr (fun factory child => factory props child) children n.factories

/-- The reduction of spec §4.2 step 2, written from the spec's words for
comparison with `invoke`: "starting accumulator = `props.children`; for
`i` from `n` down to `1`, new accumulator = `Fi(props, accumulator)`" —
so the result is `F1 props (F2 props (… (Fn props acc)))`, every level
receiving the one props value `props`. -/
def specReduce : List Factory → Props → JSValue → JSValue
  | [], _, acc => acc
  | F :: Fs, props, acc => F props (specReduce Fs props acc)

/-- A probe factory that records in its output the children value it finds
in its first (props) argument. -/
def childrenProbeFn : Factory :=
  fun q c => JSValue.node "childrenProbe" (getProp q "children") c

/-- The probe factory packaged as a two-argument-callable input to `nest`. -/
def childrenProbe : ComponentLike :=
  ComponentLike.factory (some "ChildrenProbe") childrenProbeFn

/-- A probe factory that embeds the entire props object it receives into
its output. -/
def propsProbeFn : Factory :=
  fun q c => JSValue.node "propsProbe" (encodeProps q) c

/-- The props-embedding probe packaged as an input to `nest`. -/
def propsProbe : ComponentLike :=
  ComponentLike.factory (some "PropsProbe") propsProbeFn

/-- The `i`-th member of a family of probe inputs, each a two-argument
callable that tags its output with its index and the props object it
received. -/
def probeComponent (i : Nat) : ComponentLike :=
  ComponentLike.factory (some ("Probe" ++ toString i))
    (fun q c => JSValue.node ("Probe" ++ toString i) (encodeProps q) c)

/-- The first `n` probe inputs. -/
def probeComponents (n : Nat) : List ComponentLike :=
  List.map probeComponent (List.range n)

/-- The output the probe family is expected to produce: one node per
index, every level carrying the same props object `q`, with `x` at the
core. -/
def probeTower (q : Props) (x : JSValue) : List Nat → JSValue
  | [] => x
  | i :: is => JSValue.node ("Probe" ++ toString i) (encodeProps q) (probeTower q x is)

/-- The normalizer instrumented with a call counter: each application
increments the count of `createEagerFactory` calls performed so far. -/
def createEagerFactoryCounted (c : ComponentLike) (calls : Nat) : Factory × Nat :=
  (createEagerFactory c, calls + 1)

/-- `Components.map(createEagerFactory)` (nest.js line 5) with the call
counter threaded through: one instrumented normalizer call per element. -/
def mapFactoriesCounted : List ComponentLike → Nat → List Factory × Nat
  | [], calls => ([], calls)
  | c :: cs, calls =>
    let fc := createEagerFactoryCounted c calls
    let rest := mapFactoriesCounted cs fc.2
    (fc.1 :: rest.1, rest.2)

/-- `nest` with the normalizer call counter threaded through construction:
the factory list is produced by the instrumented map, and the rest of the
construction performs no normalizer call. -/
def nestCounted (isProduction : Bool) (Components : List ComponentLike) (calls : Nat) :
    NestedFactory × Nat :=
  let fs := mapFactoriesCounted Components calls
  ({ factories := fs.1
     displayName := if isProduction then none else some (nestLabel Components) }, fs.2)

/-- One invocation of `Nest` with the normalizer call counter threaded
through: the body (nest.js lines 6-7) reads the captured `factories` list
and contains no call to `createEagerFactory`, so the counter is returned
unchanged. -/
def invokeCounted (n : NestedFactory) (p : Props) (calls : Nat) : JSValue × Nat :=
  (invoke n p, calls)

/-- `m` successive instrumented invocations of the same `NestedFactory`,
collecting the results and threading the call counter. -/
def invokeIterCounted (n : NestedFactory) (p : Props) : Nat → Nat → List JSValue × Nat
  | 0, calls => ([], calls)
  | Nat.succ m, calls =>
    let r := invokeCounted n p calls
    let rest := invokeIterCounted n p m r.2
    (r.1 :: rest.1, rest.2)

/-- Invocation as an explicit state transformer on the `NestedFactory`
value itself: the source closure assigns nothing (it only reads the
captured `factories` binding and its argument), so the translation returns
the rendered value together with the unchanged closure state. -/
def invokeS (n : NestedFactory) (p : Props) : JSValue × NestedFactory :=
  (invoke n p, n)

/-- Helper: `reduceRight` over a factory list, applied at one fixed props
value, is the spec's right-to-left reduction. -/
theorem foldr_apply_eq_specReduce (fs : List Factory) (q : Props) (x : JSValue) :
    List.foldr (fun factory child => factory q child) x fs = specReduce fs q x := by
  induction fs with
  | nil => rfl
  | cons f fs ih => simp [specReduce, ih]

/-- Helper: the instrumented map normalizes each element and performs
exactly one normalizer call per element. -/
theorem mapFactoriesCounted_eq (Components : List ComponentLike) (calls : Nat) :
    mapFactoriesCounted Components calls
      = (List.map createEagerFactory Components, calls + Components.length) := by
  induction Components generalizing calls with
  | nil => rfl
  | cons c cs ih =>
    simp [mapFactoriesCounted, createEagerFactoryCounted, ih]
    omega

/-- Helper: repeated instrumented invocations leave the normalizer call
counter unchanged. -/
theorem invokeIterCounted_snd (n : NestedFactory) (p : Props) (m calls : Nat) :
    (invokeIterCounted n p m calls).2 = calls := by
  induction m generalizing calls with
  | zero => rfl
  | succ m ih => simp [invokeIterCounted, invokeCounted, ih]

/-- Helper: folding the normalized probe family from the right builds the
probe tower, every level of which records the one props value `q`. -/
theorem foldr_probes_eq_probeTower (is : List Nat) (q : Props) (x : JSValue) :
    List.foldr (fun factory child => factory q child) x
        (List.map (fun i => createEagerFactory (probeComponent i)) is)
      = probeTower q x is := by
  induction is with
  | nil => rfl
  | cons i is ih =>
    simp only [List.map_cons, List.foldr_cons, ih]
    rfl

/-- C1 (counterexample): as stated — with every `Fi` applied to the very
props object the `NestedFactory` was invoked with — the claim fails: for
the single input `childrenProbe` and invocation props
`{children: "X"}`, the code hands the factory the rest object `{}` (the
probe records `undefined`), while the claimed fold would hand it the full
object (the probe would record `"X"`). -/
theorem nest_fold_full_props_refuted :
    invoke (nest false [childrenProbe]) [("children", JSValue.str "X")]
      ≠ specReduce (List.map createEagerFactory [childrenProbe])
          [("children", JSValue.str "X")]
          (getProp [("children", JSValue.str "X")] "children") := by
  decide

/-- C1 (amended): invoking `nest(C1, …, Cn)` with a props object performs
the right-to-left reduction: accumulator starts at the children value, and
for `i` from `n` down to `1` the new accumulator is `Fi(props, acc)`,
where `Fi` is the normalized factory of `Ci` and `props` is the invocation
props object with its `children` entry removed — so `F1` ends outermost,
`Fn` innermost, and the children value at the core, matching input
order. -/
theorem nest_invoke_foldsRight (isProduction : Bool) (Components : List ComponentLike)
    (p : Props) :
    invoke (nest isProduction Components) p
      = specReduce (List.map createEagerFactory Components)
          (removeProp p "children") (getProp p "children") :=
  foldr_apply_eq_specReduce (List.map createEagerFactory Components)
    (removeProp p "children") (getProp p "children")

/-- C2 (counterexample): the claim that no factory receives a filtered
copy of the invocation props fails: for the single input `propsProbe` and
invocation props `{children: "Y", a: 1}`, the code does not hand the
factory the invocation props object — the factory observes `{a: 1}`, a
copy with the `children` entry filtered out. -/
theorem nest_unfiltered_props_refuted :
    invoke (nest false [propsProbe]) [("children", JSValue.str "Y"), ("a", JSValue.num 1)]
      ≠ propsProbeFn [("children", JSValue.str "Y"), ("a", JSValue.num 1)]
          (getProp [("children", JSValue.str "Y"), ("a", JSValue.num 1)] "children") := by
  decide

/-- C2 (amended): in a single invocation every normalized factory receives
one and the same props value at every nesting level — the invocation props
with the `children` entry removed; no per-level mutation or filtering
occurs between levels.  Stated via `specReduce`, whose one props argument
is handed unchanged to every level. -/
theorem nest_props_uniform_across_levels (n : NestedFactory) (p : Props) :
    invoke n p = specReduce n.factories (removeProp p "children") (getProp p "children") :=
  foldr_apply_eq_specReduce n.factories (removeProp p "children") (getProp p "children")

/-- C3: `nest()` with zero inputs is the identity on children: invoking it
returns the `children` field of its props argument unchanged, in any build
mode. -/
theorem nest_empty_identity (isProduction : Bool) (p : Props) :
    invoke (nest isProduction []) p = getProp p "children" := rfl

/-- C4 (counterexample): as stated — `nest(A)` invoked with `p` equal to
the normalized factory of `A` applied to `(p, p.children)` — the claim
fails at `A = childrenProbe`, `p = {children: 7}`: the code applies the
factory to the rest object `{}` (the probe records `undefined`), not to
`p` itself (the probe would record `7`). -/
theorem nest_single_full_props_refuted :
    invoke (nest false [childrenProbe]) [("children", JSValue.num 7)]
      ≠ createEagerFactory childrenProbe [("children", JSValue.num 7)]
          (getProp [("children", JSValue.num 7)] "children") := by
  decide

/-- C4 (amended): `nest(A)` with one input, invoked with props `p`, equals
the normalized factory of `A` applied to the two arguments
`(p minus its children entry, p.children)`. -/
theorem nest_single_eq_factory (isProduction : Bool) (A : ComponentLike) (p : Props) :
    invoke (nest isProduction [A]) p
      = createEagerFactory A (removeProp p "children") (getProp p "children") := rfl

/-- C5: normalization is eager.  Threading a counter of normalizer calls
through the embedding: construction of `nest(C1, …, Cn)` performs exactly
`n` calls to `createEagerFactory` (one per input) and yields the very
`NestedFactory` of the uninstrumented embedding, while any number `m` of
subsequent invocations performs zero further normalizer calls. -/
theorem nest_normalization_eager (isProduction : Bool) (Components : List ComponentLike)
    (calls : Nat) :
    (nestCounted isProduction Components calls).1 = nest isProduction Components
    ∧ (nestCounted isProduction Components calls).2 = calls + Components.length
    ∧ ∀ (p : Props) (m k : Nat),
        (invokeIterCounted (nest isProduction Components) p m k).2 = k := by
  refine ⟨?_, ?_, ?_⟩
  · simp [nestCounted, nest, mapFactoriesCounted_eq]
  · simp [nestCounted, mapFactoriesCounted_eq]
  · intro p m k
    exact invokeIterCounted_snd (nest isProduction Components) p m k

/-- C6: in a non-production build the returned factory is annotated with
`nest(…)` wrapped around the display names of the original inputs joined
by `", "`; in particular two factory inputs named "A" and "B" give the
label `"nest(A, B)"`. -/
theorem nest_displayName_label (Components : List ComponentLike) (fA fB : Factory) :
    (nest false Components).displayName
        = some ("nest(" ++ String.intercalate ", " (List.map getDisplayName Components) ++ ")")
    ∧ (nest false [ComponentLike.factory (some "A") fA,
        ComponentLike.factory (some "B") fB]).displayName = some "nest(A, B)" := by
  exact ⟨rfl, rfl⟩

/-- C7: a constructed `NestedFactory` is deterministic and stateless:
with invocation modelled as an explicit state transformer on the closure,
a second invocation with identical props yields a result structurally
equal to the first, and the closure state after both invocations is the
one built at construction — no hidden state accumulates. -/
theorem nest_invoke_deterministic_stateless (n : NestedFactory) (p : Props) :
    (invokeS ((invokeS n p).2) p).1 = (invokeS n p).1
    ∧ (invokeS ((invokeS n p).2) p).2 = n :=
  ⟨rfl, rfl⟩

/-- C8: the build-mode flag controls only the label: production and
non-production builds render identically on every props object and store
the same factory list, and the production build attaches no label. -/
theorem nest_production_flag_only_label (Components : List ComponentLike) (p : Props) :
    invoke (nest true Components) p = invoke (nest false Components) p
    ∧ (nest true Components).factories = (nest false Components).factories
    ∧ (nest true Components).displayName = none :=
  ⟨rfl, rfl, rfl⟩

/-- C9: the props object handed to every normalized factory is the
invocation props with the `children` key removed, with the children value
threaded separately as the fold's seed: for the probe family of any size,
every nesting level of the output records exactly
`removeProp p "children"`, and the core is `getProp p "children"`. -/
theorem nest_props_children_removed_probes (count : Nat) (isProduction : Bool) (p : Props) :
    invoke (nest isProduction (probeComponents count)) p
      = probeTower (removeProp p "children") (getProp p "children") (List.range count) := by
  have h := foldr_probes_eq_probeTower (List.range count)
    (removeProp p "children") (getProp p "children")
  simpa [invoke, nest, probeComponents, List.map_map, Function.comp] using h

/-- C10: in a non-production build `nest` of zero inputs still attaches a
label, and the label is exactly `"nest()"`. -/
theorem nest_empty_label : (nest false []).displayName = some "nest()" := rfl
